import Mathlib

/-
Verification of the Light Cloud VS Code extension's deployment orchestration
core (project introspection, upload packaging/size gating, the deployment
health-wait loop, the API client's 401 handling, and the persisted local
binding).  Each definition is a shallow embedding of the corresponding
TypeScript source; filesystem, network and UI effects are passed in as
explicit state or outcome parameters.
-/

/-! # JavaScript semantics helpers -/

/-- Truthiness of an optional string under JavaScript rules: `undefined` and
the empty string are falsy, every other string is truthy. -/
def jsTruthy : Option String → Bool
  | none => false
  | some s => !(s == "")

/-- The JavaScript expression `o || d` for an optional string `o`:
`undefined` and `""` fall through to the default. -/
def jsOrStr (o : Option String) (d : String) : String :=
  match o with
  | some s => if s == "" then d else s
  | none => d

/-- The JavaScript expression `o || d` for an optional number `o`:
`undefined` and `0` fall through to the default. -/
def jsOrNat (o : Option Nat) (d : Nat) : Nat :=
  match o with
  | some n => if n == 0 then d else n
  | none => d

/-- Contiguous-substring test on character lists (the toolchain has no
`List.isInfixOf`). -/
def listIsInfixOf (pat : List Char) : List Char → Bool
  | [] => pat.isEmpty
  | c :: rest => List.isPrefixOf pat (c :: rest) || listIsInfixOf pat rest

/-- The string `s.includes(pat)` test. -/
def strHas (s pat : String) : Bool :=
  listIsInfixOf pat.toList s.toList

/-- The string `s.startsWith(pat)` test. -/
def strStartsWith (s pat : String) : Bool :=
  pat.toList.isPrefixOf s.toList

/-- The string `s.endsWith(pat)` test. -/
def strEndsWith (s pat : String) : Bool :=
  pat.toList.isSuffixOf s.toList

/-- The string `s.slice(1)`. -/
def strDropFirst (s : String) : String :=
  String.mk (s.toList.drop 1)

/-- The string `s.slice(0, -1)`. -/
def strDropLast (s : String) : String :=
  String.mk s.toList.dropLast

/-! # Local binding store (src/utils/config-manager.ts)

The persisted `.lightcloud` file is modelled as `Option LightCloudConfig`:
`none` is "no file (or unparsable file)".  A partial update - the argument of
`ConfigManager.write` - has type `ConfigUpdate`, where a field value `none`
means "key absent from the update", `some none` means "key explicitly set to
`undefined`", and `some (some v)` means "key set to `v`".  The workspace is
assumed to be open (`getConfigPath` returns a path). -/

structure LightCloudConfig where
  organisationId : Option String := none
  organisationName : Option String := none
  applicationId : Option String := none
  applicationName : Option String := none
  environmentId : Option String := none
  environmentName : Option String := none
  deploymentType : Option String := none
  framework : Option String := none
  runtime : Option String := none
  lastDeployedAt : Option String := none
deriving DecidableEq

structure ConfigUpdate where
  organisationId : Option (Option String) := none
  organisationName : Option (Option String) := none
  applicationId : Option (Option String) := none
  applicationName : Option (Option String) := none
  environmentId : Option (Option String) := none
  environmentName : Option (Option String) := none
  deploymentType : Option (Option String) := none
  framework : Option (Option String) := none
  runtime : Option (Option String) := none
  lastDeployedAt : Option (Option String) := none
deriving DecidableEq

inductive ConfigField
  | organisationId
  | organisationName
  | applicationId
  | applicationName
  | environmentId
  | environmentName
  | deploymentType
  | framework
  | runtime
  | lastDeployedAt
deriving DecidableEq

def LightCloudConfig.get (c : LightCloudConfig) : ConfigField → Option String
  | .organisationId => c.organisationId
  | .organisationName => c.organisationName
  | .applicationId => c.applicationId
  | .applicationName => c.applicationName
  | .environmentId => c.environmentId
  | .environmentName => c.environmentName
  | .deploymentType => c.deploymentType
  | .framework => c.framework
  | .runtime => c.runtime
  | .lastDeployedAt => c.lastDeployedAt

def ConfigUpdate.get (u : ConfigUpdate) : ConfigField → Option (Option String)
  | .organisationId => u.organisationId
  | .organisationName => u.organisationName
  | .applicationId => u.applicationId
  | .applicationName => u.applicationName
  | .environmentId => u.environmentId
  | .environmentName => u.environmentName
  | .deploymentType => u.deploymentType
  | .framework => u.framework
  | .runtime => u.runtime
  | .lastDeployedAt => u.lastDeployedAt

/-- One field of the object spread `{...existingConfig, ...config}`: a key
present in the update (even with value `undefined`) wins, otherwise the
existing key (if present) is kept, as a defined value. -/
def spreadField (existing : Option String) (upd : Option (Option String)) :
    Option (Option String) :=
  match upd with
  | some v => some v
  | none =>
    match existing with
    | some w => some (some w)
    | none => none

/-- The `delete newConfig[key]` loop of `ConfigManager.write`: a key whose
value is `undefined` is removed. -/
def removeUndefined : Option (Option String) → Option String
  | some (some w) => some w
  | some none => none
  | none => none

def mergeField (existing : Option String) (upd : Option (Option String)) : Option String :=
  removeUndefined (spreadField existing upd)

def emptyConfig : LightCloudConfig := {}

/-- `ConfigManager.read`: returns the parsed config, or `null` when the file
is absent (or failed to parse - a parse failure is already folded into the
`none` state). -/
def ConfigManager.read (st : Option LightCloudConfig) : Option LightCloudConfig :=
  st

/-- `ConfigManager.write`: merges the update over the existing config
(`this.read() || {}`), removes keys explicitly set to `undefined`, writes the
result and returns `true`.  Result: the new persisted state and the returned
boolean. -/
def ConfigManager.write (upd : ConfigUpdate) (st : Option LightCloudConfig) :
    Option LightCloudConfig × Bool :=
  let existing := (ConfigManager.read st).getD emptyConfig
  let newConfig : LightCloudConfig :=
    { organisationId := mergeField existing.organisationId upd.organisationId
      organisationName := mergeField existing.organisationName upd.organisationName
      applicationId := mergeField existing.applicationId upd.applicationId
      applicationName := mergeField existing.applicationName upd.applicationName
      environmentId := mergeField existing.environmentId upd.environmentId
      environmentName := mergeField existing.environmentName upd.environmentName
      deploymentType := mergeField existing.deploymentType upd.deploymentType
      framework := mergeField existing.framework upd.framework
      runtime := mergeField existing.runtime upd.runtime
      lastDeployedAt := mergeField existing.lastDeployedAt upd.lastDeployedAt }
  (some newConfig, true)

/-- `ConfigManager.clear`: unlinks the file when it exists (and succeeds
trivially when it does not), returning `true` either way. -/
def ConfigManager.clear (_st : Option LightCloudConfig) : Option LightCloudConfig × Bool :=
  (none, true)

/-! # Redeploy / destroy / status commands reading the binding
(src/commands/redeploy.ts, src/commands/destroy.ts, src/commands/status.ts) -/

inductive RedeployCall
  | deployEnvironment (organisationId environmentId : Option String)
  | updateLastDeployedAt
  | getApplication (organisationId applicationId : Option String)
deriving DecidableEq

/-- `RedeployCommand.execute`: result metadata status together with the
sequence of remote/local calls issued.  The guard requires `applicationId`,
`organisationId` and `environmentId` to all be (JS-)truthy, else the command
reports `no-config` without any call. -/
def RedeployCommand.execute (savedConfig : Option LightCloudConfig)
    (deploySuccess : Bool) : String × List RedeployCall :=
  match savedConfig with
  | none => ("no-config", [])
  | some c =>
    if !(jsTruthy c.applicationId) || !(jsTruthy c.organisationId)
        || !(jsTruthy c.environmentId) then
      ("no-config", [])
    else if !deploySuccess then
      ("error", [.deployEnvironment c.organisationId c.environmentId])
    else
      ("success",
        [.deployEnvironment c.organisationId c.environmentId,
         .updateLastDeployedAt,
         .getApplication c.organisationId c.applicationId])

inductive DestroyOutcome
  | confirmFromBinding (applicationId applicationName organisationId : Option String)
  | missingTarget
deriving DecidableEq

/-- `DestroyCommand.execute` on an empty prompt: when the saved config has a
truthy `applicationId` and `applicationName`, the command shows the
confirmation for the bound application, passing `savedConfig.organisationId`
through (possibly `undefined`); otherwise it reports `missing-target`. -/
def DestroyCommand.executeNoTarget (savedConfig : Option LightCloudConfig) :
    DestroyOutcome :=
  match savedConfig with
  | some c =>
    if jsTruthy c.applicationId && jsTruthy c.applicationName then
      .confirmFromBinding c.applicationId c.applicationName c.organisationId
    else .missingTarget
  | none => .missingTarget

/-- `StatusCommand.execute` with an empty prompt: the only part of the saved
config consulted is `applicationName`, used as a filter when truthy. -/
def StatusCommand.configNameFilter (savedConfig : Option LightCloudConfig) :
    Option String :=
  match savedConfig with
  | some c => if jsTruthy c.applicationName then c.applicationName else none
  | none => none

/-! # Framework detection (src/detection/framework-detector.ts)

A project directory is abstracted by the manifest facts the detector reads:
the parsed `package.json` (dependency keys of `dependencies` and
`devDependencies` merged, the `main` field, the `scripts.start` field, the
`packageManager` field), the text of `requirements.txt`, and existence flags
for `pyproject.toml`, `go.mod`, `Dockerfile` and the env-file candidates.
Dependency presence stands for a truthy version string in the manifest. -/

inductive DeploymentType
  | static
  | container
deriving DecidableEq

structure DetectedProject where
  framework : Option String := none
  runtime : Option String := none
  deploymentType : DeploymentType := .static
  buildCommand : Option String := none
  startCommand : Option String := none
  outputDirectory : Option String := none
  packageManager : Option String := none
  hasDockerfile : Bool := false
  envFiles : List String := []
  detectedDependencies : List String := []
deriving DecidableEq

structure PackageJson where
  main : Option String := none
  scriptsStart : Option String := none
  deps : List String := []
  packageManagerField : Option String := none
deriving DecidableEq

structure ProjectDir where
  packageJson : Option PackageJson := none
  requirementsTxt : Option String := none
  hasPyproject : Bool := false
  hasGoMod : Bool := false
  hasDockerfile : Bool := false
  filesPresent : List String := []
deriving DecidableEq

def detectPackageManager (pj : PackageJson) : String :=
  match pj.packageManagerField with
  | some s =>
    if s == "" then "npm"
    else if strStartsWith s "yarn" then "yarn"
    else if strStartsWith s "pnpm" then "pnpm"
    else "npm"
  | none => "npm"

/-- `FrameworkDetector.detectFromPackageJson`: first matching dependency wins
(the source returns early per branch). -/
def detectFromPackageJson (pj : PackageJson) (r0 : DetectedProject) : DetectedProject :=
  let r := { r0 with packageManager := some (detectPackageManager pj) }
  if pj.deps.contains "next" then
    { r with framework := some "nextjs", runtime := some "nodejs",
             buildCommand := some "npm run build", startCommand := some "npm start",
             deploymentType := .container }
  else if pj.deps.contains "react" then
    if pj.deps.contains "vite" then
      { r with framework := some "react", runtime := some "nodejs",
               deploymentType := .static, buildCommand := some "npm run build",
               outputDirectory := some "dist" }
    else
      { r with framework := some "react", runtime := some "nodejs",
               deploymentType := .static, buildCommand := some "npm run build",
               outputDirectory := some "build" }
  else if pj.deps.contains "vue" then
    { r with framework := some "vue", runtime := some "nodejs",
             deploymentType := .static, buildCommand := some "npm run build",
             outputDirectory := some "dist" }
  else if pj.deps.contains "@angular/core" then
    { r with framework := some "angular", runtime := some "nodejs",
             deploymentType := .static, buildCommand := some "npm run build",
             outputDirectory := some "dist" }
  else if pj.deps.contains "svelte" then
    { r with framework := some "svelte", runtime := some "nodejs",
             deploymentType := .static, buildCommand := some "npm run build",
             outputDirectory := some "build" }
  else if pj.deps.contains "express" then
    { r with framework := some "express", runtime := some "nodejs",
             deploymentType := .container,
             startCommand := some (jsOrStr pj.scriptsStart "node index.js") }
  else if jsTruthy pj.main || jsTruthy pj.scriptsStart then
    { r with runtime := some "nodejs", deploymentType := .container,
             startCommand := some (jsOrStr pj.scriptsStart
               ("node " ++ jsOrStr pj.main "index.js")) }
  else r

/-- `FrameworkDetector.detectPythonProject`. -/
def detectPythonProject (requirementsTxt : Option String) (r0 : DetectedProject) :
    DetectedProject :=
  let r := { r0 with runtime := some "python", deploymentType := DeploymentType.container }
  match requirementsTxt with
  | some req =>
    if strHas req "fastapi" then
      let r1 := { r with framework := some "fastapi",
                         startCommand := some "uvicorn main:app --host 0.0.0.0 --port $PORT" }
      if strHas req "sqlalchemy" || strHas req "asyncpg" || strHas req "psycopg" then
        { r1 with detectedDependencies := r1.detectedDependencies ++ ["postgresql"] }
      else r1
    else if strHas req "flask" then
      { r with framework := some "flask",
               startCommand := some "gunicorn app:app --bind 0.0.0.0:$PORT" }
    else if strHas req "django" then
      { r with startCommand := some "gunicorn myproject.wsgi --bind 0.0.0.0:$PORT" }
    else r
  | none => r

def envFileCandidates : List String :=
  [".env", ".env.example", ".env.local", ".env.development", ".env.production"]

def findEnvFiles (p : ProjectDir) : List String :=
  envFileCandidates.filter (fun f => p.filesPresent.contains f)

/-- `FrameworkDetector.detect`: the detection passes run in source order over
one mutable result initialised to `deploymentType: static`; the `Dockerfile`
check runs last. -/
def FrameworkDetector.detect (p : ProjectDir) : DetectedProject :=
  let r0 : DetectedProject := {}
  let r1 :=
    match p.packageJson with
    | some pj => detectFromPackageJson pj r0
    | none => r0
  let r2 :=
    if p.requirementsTxt.isSome || p.hasPyproject then detectPythonProject p.requirementsTxt r1
    else r1
  let r3 :=
    if p.hasGoMod then { r2 with runtime := some "go", deploymentType := DeploymentType.container }
    else r2
  let r4 := { r3 with hasDockerfile := p.hasDockerfile }
  let r5 :=
    if p.hasDockerfile then { r4 with deploymentType := DeploymentType.container } else r4
  { r5 with envFiles := findEnvFiles p }

/-! # Deployment health-wait polling loop
(src/commands/upload-deploy.ts, UploadDeployCommand.waitForDeployment)

The loop polls `getEnvironment` every `pollIntervalMs` for up to `maxWaitMs`:
while the elapsed time is below the budget it polls; `healthy` resolves,
`failed` throws, anything else sleeps one interval.  Poll `k` is sampled at
elapsed time `k * pollIntervalMs` (polls are treated as instantaneous).
`statusAt k` is `status.data?.status` of the `k`-th poll (`none` when the
envelope carries no data).  The second component counts polls issued.  The
fuel `101` strictly exceeds the `100` loop iterations the time budget allows,
so the fuel-exhausted branch is never reached from `waitForDeployment`. -/

def pollIntervalMs : Nat := 3000

def maxWaitMs : Nat := 5 * 60 * 1000

inductive WaitOutcome
  | healthy
  | failedErr
  | timedOut
deriving DecidableEq

def waitAux (statusAt : Nat → Option String) : Nat → Nat → WaitOutcome × Nat
  | 0, k => (.timedOut, k)
  | fuel + 1, k =>
    if k * pollIntervalMs < maxWaitMs then
      match statusAt k with
      | some s =>
        if s == "healthy" then (.healthy, k + 1)
        else if s == "failed" then (.failedErr, k + 1)
        else waitAux statusAt fuel (k + 1)
      | none => waitAux statusAt fuel (k + 1)
    else (.timedOut, k)

def UploadDeployCommand.waitForDeployment (statusAt : Nat → Option String) :
    WaitOutcome × Nat :=
  waitAux statusAt 101 0

/-! # Upload-and-deploy command (src/commands/upload-deploy.ts)

`execute` is abstracted over the effect outcomes it branches on; it returns
the sequence of pipeline events in order together with the command result
(`finished` with the metadata status, or `raised` when the health wait throws
out of `execute`).  `uploadCall` marks the call into `SourceUploader.upload`,
the first network activity of the upload; `sizeRejected` marks the too-large
return. -/

inductive UpEvent
  | packaged
  | sizeRejected
  | uploadCall
  | createAppCall
  | logsStreamed
deriving DecidableEq

inductive UploadCallOutcome
  | okId (uploadId : String)
  | errMsg (msg : String)
deriving DecidableEq

inductive CmdResult
  | finished (status : String)
  | raised (msg : String)
deriving DecidableEq

structure UploadDeployScenario where
  workspaceFound : Bool := true
  totalSize : Nat := 0
  uploadMaxSizeMBSetting : Option Nat := none
  uploadOutcome : UploadCallOutcome := .okId "upload-1"
  createSuccess : Bool := true
  showBuildLogs : Bool := false
  hasFirstEnvironment : Bool := false
  envStatusAt : Nat → Option String := fun _ => none

def UploadDeployCommand.execute (sc : UploadDeployScenario) : List UpEvent × CmdResult :=
  if !sc.workspaceFound then ([], .finished "error")
  else
    let ev0 := [UpEvent.packaged]
    let maxSizeMB := jsOrNat sc.uploadMaxSizeMBSetting 100
    if sc.totalSize > maxSizeMB * 1024 * 1024 then
      (ev0 ++ [UpEvent.sizeRejected], .finished "too-large")
    else
      let ev1 := ev0 ++ [UpEvent.uploadCall]
      match sc.uploadOutcome with
      | .errMsg _ => (ev1, .finished "upload-failed")
      | .okId _ =>
        let ev2 := ev1 ++ [UpEvent.createAppCall]
        if !sc.createSuccess then (ev2, .finished "deploy-failed")
        else if sc.showBuildLogs && sc.hasFirstEnvironment then
          match UploadDeployCommand.waitForDeployment sc.envStatusAt with
          | (.failedErr, _) => (ev2 ++ [UpEvent.logsStreamed], .raised "Deployment failed")
          | _ => (ev2 ++ [UpEvent.logsStreamed], .finished "success")
        else (ev2, .finished "success")

/-! # Source packager (src/upload/packager.ts, src/upload/excludes.ts)

The project tree is a rose tree of named entries; `collectFiles` is the
depth-first walk of `SourcePackager.collectFiles`, instrumented to also
record every relative path that was tested against the exclusion patterns
(every `shouldExclude` call the walk makes).  Paths use "/" separators as
`path.relative` produces on POSIX.  The extra fuel argument bounds the number
of walk steps (the source walks a finite filesystem); any fuel at least the
number of entries of the tree yields the walk's value. -/

def DEFAULT_EXCLUDES : List String :=
  ["node_modules", "vendor", "__pycache__", "venv", ".venv", "env", ".env",
   "dist", "build", "out", ".next", ".nuxt", ".output",
   ".git", ".svn", ".hg",
   ".idea", ".vscode", "*.swp", "*.swo",
   ".DS_Store", "Thumbs.db",
   "*.log", "logs",
   ".env", ".env.local", ".env.*.local", "*.pem", "*.key",
   "credentials.json", "secrets.json"]

/-- `SourcePackager.shouldExclude`: exact name match, substring of the
relative path, `*.ext` suffix match on the name, or `dir/` pattern matching
the start of the relative path. -/
def shouldExclude (relativePath name : String) (patterns : List String) : Bool :=
  patterns.any fun pattern =>
    pattern == name
    || strHas relativePath pattern
    || (strStartsWith pattern "*" && strEndsWith name (strDropFirst pattern))
    || (strEndsWith pattern "/" && strStartsWith relativePath (strDropLast pattern))

inductive FsEntry
  | file (name : String)
  | dir (name : String) (children : List FsEntry)

def FsEntry.entryName : FsEntry → String
  | .file n => n
  | .dir n _ => n

/-- `path.relative(rootPath, path.join(dir, name))` along the walk. -/
def relJoin (pre name : String) : String :=
  if pre == "" then name else pre ++ "/" ++ name

structure WalkRes where
  files : List String := []
  excluded : Nat := 0
  tested : List String := []
deriving DecidableEq

def mergeRes (a b : WalkRes) : WalkRes :=
  ⟨a.files ++ b.files, a.excluded + b.excluded, a.tested ++ b.tested⟩

/-- `SourcePackager.collectFiles`'s `walk`: each entry is tested once; an
excluded entry bumps the counter and is skipped (`continue`), an included
directory is recursed into, an included file is collected. -/
def SourcePackager.collectFiles (patterns : List String) :
    Nat → String → List FsEntry → WalkRes
  | 0, _, _ => {}
  | _ + 1, _, [] => {}
  | fuel + 1, pre, e :: rest =>
    let name := e.entryName
    let rel := relJoin pre name
    if shouldExclude rel name patterns then
      mergeRes ⟨[], 1, [rel]⟩ (SourcePackager.collectFiles patterns fuel pre rest)
    else
      match e with
      | .file _ =>
        mergeRes ⟨[rel], 0, [rel]⟩ (SourcePackager.collectFiles patterns fuel pre rest)
      | .dir _ children =>
        let sub := SourcePackager.collectFiles patterns fuel rel children
        mergeRes ⟨sub.files, sub.excluded, rel :: sub.tested⟩
          (SourcePackager.collectFiles patterns fuel pre rest)

/-! # Source uploader (src/upload/uploader.ts)

`uploadToSignedUrl` performs the PUT and then - unconditionally, before the
caller inspects `response.ok` - reports the single
`(loaded = total = buffer.length, 100)` progress event; when the PUT throws,
the exception propagates before any progress is reported.  `upload` chains
the three remote steps; its value is the progress events emitted during the
attempt together with the `uploadId`-or-`error` result. -/

structure UploadProgress where
  loaded : Nat
  total : Nat
  percentage : Nat
deriving DecidableEq

inductive FetchPutOutcome
  | throwsNet (msg : String)
  | resp (ok : Bool) (status : Nat)
deriving DecidableEq

structure UploadScenario where
  requestUrlOutcome : Option String := some "upload-1"
  requestUrlErrMsg : String := "Failed to get upload URL"
  putOutcome : FetchPutOutcome := .resp true 200
  completeSuccess : Bool := true
  completeErrMsg : String := "Failed to confirm upload"
  bufferLength : Nat := 0
deriving DecidableEq

def SourceUploader.uploadToSignedUrl (putOutcome : FetchPutOutcome) (bufferLength : Nat) :
    List UploadProgress × Except String (Bool × Nat) :=
  match putOutcome with
  | .throwsNet m => ([], .error m)
  | .resp ok status => ([⟨bufferLength, bufferLength, 100⟩], .ok (ok, status))

def SourceUploader.upload (sc : UploadScenario) : List UploadProgress × UploadCallOutcome :=
  match sc.requestUrlOutcome with
  | none => ([], .errMsg sc.requestUrlErrMsg)
  | some uploadId =>
    match SourceUploader.uploadToSignedUrl sc.putOutcome sc.bufferLength with
    | (events, .error m) => (events, .errMsg m)
    | (events, .ok (ok, status)) =>
      if !ok then (events, .errMsg ("Upload failed: " ++ toString status))
      else if !sc.completeSuccess then (events, .errMsg sc.completeErrMsg)
      else (events, .okId uploadId)

/-! # API client request / 401 handling (src/api/client.ts)

`request` is abstracted over the transport: `fetchAt n` is the outcome of the
`n`-th HTTP attempt of one original call, `refreshAt n` the outcome of the
token refresh performed after attempt `n` (when that attempt came back 401).
Token storage is abstracted away (a token is assumed present).  The source's
401 branch re-enters `request` with no retry bound, so the embedding carries
fuel; `none` means the recursion did not settle within the fuel.  The second
component counts HTTP attempts made for the one original call. -/

structure HttpBody where
  code : Option String := none
  message : Option String := none
deriving DecidableEq

inductive FetchRes
  | throwsNet (msg : String)
  | resp (status : Nat) (statusText : String) (body : HttpBody)
deriving DecidableEq

structure ApiError where
  code : String
  message : String
deriving DecidableEq

inductive ApiOutcome
  | ok
  | err (e : ApiError)
deriving DecidableEq

def respIsOk (status : Nat) : Bool :=
  200 ≤ status && status < 300

def is401 : FetchRes → Bool
  | .resp status _ _ => status == 401
  | .throwsNet _ => false

/-- The non-401 arm of `ApiClient.request`'s response handling: redirect
check, `response.ok` check, error envelope from the body. -/
def handleNon401 : FetchRes → ApiOutcome
  | .throwsNet m => .err ⟨"NETWORK_ERROR", m⟩
  | .resp status statusText body =>
    if 300 ≤ status && status < 400 then
      .err ⟨"REDIRECT", "Unexpected redirect response from API"⟩
    else if respIsOk status then .ok
    else .err ⟨jsOrStr body.code ("HTTP_" ++ toString status), jsOrStr body.message statusText⟩

def ApiClient.requestAux (fetchAt : Nat → FetchRes) (refreshAt : Nat → Bool) :
    Nat → Nat → Option (ApiOutcome × Nat)
  | 0, _ => none
  | fuel + 1, n =>
    match fetchAt n with
    | .throwsNet m => some (.err ⟨"NETWORK_ERROR", m⟩, n + 1)
    | .resp status statusText body =>
      if 300 ≤ status && status < 400 then
        some (.err ⟨"REDIRECT", "Unexpected redirect response from API"⟩, n + 1)
      else if status == 401 then
        if refreshAt n then ApiClient.requestAux fetchAt refreshAt fuel (n + 1)
        else some (.err ⟨"UNAUTHORIZED", "Session expired. Please login again."⟩, n + 1)
      else if respIsOk status then some (.ok, n + 1)
      else
        some (.err ⟨jsOrStr body.code ("HTTP_" ++ toString status),
                    jsOrStr body.message statusText⟩, n + 1)

def ApiClient.request (fetchAt : Nat → FetchRes) (refreshAt : Nat → Bool) (fuel : Nat) :
    Option (ApiOutcome × Nat) :=
  ApiClient.requestAux fetchAt refreshAt fuel 0

/-- The outcome `ApiClient.request` surfaces at its exit attempt: a 401 whose
refresh failed surfaces the session-expired error, any non-401 outcome is
handled normally. -/
def requestExit (r : FetchRes) : ApiOutcome :=
  if is401 r then .err ⟨"UNAUTHORIZED", "Session expired. Please login again."⟩
  else handleNon401 r

/-! # Git remote-URL classification (src/detection/git-detector.ts)

`parseGitHubUrl` applies the two JavaScript regexes
`github\.com\/([^\/]+)\/([^\/\.]+)` and `git@github\.com:([^\/]+)\/([^\.]+)`
to the remote URL.  `matchHttpsAt`/`matchSshAt` decide a match anchored at a
position (the capture groups are greedy runs, and since the owner class
excludes "/" no backtracking can occur); `scanFor` is the regex engine's
leftmost scan over every start position. -/

structure GitHubUrlInfo where
  isGitHub : Bool
  owner : Option String := none
  repo : Option String := none
deriving DecidableEq

def notSlash (c : Char) : Bool := !(c == '/')

def notSlashDot (c : Char) : Bool := !(c == '/') && !(c == '.')

def notDot (c : Char) : Bool := !(c == '.')

def matchHttpsAt (cs : List Char) : Option (List Char × List Char) :=
  let needle := "github.com/".toList
  if needle.isPrefixOf cs then
    let rest := cs.drop needle.length
    let own := rest.takeWhile notSlash
    let rest1 := rest.dropWhile notSlash
    if own.isEmpty then none
    else
      match rest1 with
      | '/' :: rest2 =>
        let rep := rest2.takeWhile notSlashDot
        if rep.isEmpty then none else some (own, rep)
      | _ => none
  else none

def matchSshAt (cs : List Char) : Option (List Char × List Char) :=
  let needle := "git@github.com:".toList
  if needle.isPrefixOf cs then
    let rest := cs.drop needle.length
    let own := rest.takeWhile notSlash
    let rest1 := rest.dropWhile notSlash
    if own.isEmpty then none
    else
      match rest1 with
      | '/' :: rest2 =>
        let rep := rest2.takeWhile notDot
        if rep.isEmpty then none else some (own, rep)
      | _ => none
  else none

def scanFor (m : List Char → Option (List Char × List Char)) :
    List Char → Option (List Char × List Char)
  | [] => m []
  | c :: rest =>
    match m (c :: rest) with
    | some r => some r
    | none => scanFor m rest

def GitDetector.parseGitHubUrl (url : Option String) : GitHubUrlInfo :=
  match url with
  | none => ⟨false, none, none⟩
  | some u =>
    match scanFor matchHttpsAt u.toList with
    | some (own, rep) => ⟨true, some (String.mk own), some (String.mk rep)⟩
    | none =>
      match scanFor matchSshAt u.toList with
      | some (own, rep) => ⟨true, some (String.mk own), some (String.mk rep)⟩
      | none => ⟨false, none, none⟩

/-- Modelled from the spec: "A remote URL matching a known hosting provider's
HTTPS or SSH form yields owner/repo".  The provider's HTTPS form, following
the source comment "HTTPS: https://github.com/owner/repo.git": the whole URL
is `https://github.com/<owner>/<repo>` with an optional `.git` suffix, owner
nonempty without "/", repo nonempty without "/" or ".". -/
def specProviderHttpsForm (u : String) : Bool :=
  let cs := u.toList
  let pre := "https://github.com/".toList
  pre.isPrefixOf cs &&
    (let rest := cs.drop pre.length
     let own := rest.takeWhile notSlash
     let rest1 := rest.dropWhile notSlash
     !own.isEmpty &&
       match rest1 with
       | '/' :: rest2 =>
         let core := if ".git".toList.isSuffixOf rest2
                     then rest2.take (rest2.length - 4) else rest2
         !core.isEmpty && core.all notSlashDot
       | _ => false)

/-- Modelled from the spec: the provider's SSH form, following the source
comment "SSH: git@github.com:owner/repo.git": the whole URL is
`git@github.com:<owner>/<repo>` with an optional `.git` suffix. -/
def specProviderSshForm (u : String) : Bool :=
  let cs := u.toList
  let pre := "git@github.com:".toList
  pre.isPrefixOf cs &&
    (let rest := cs.drop pre.length
     let own := rest.takeWhile notSlash
     let rest1 := rest.dropWhile notSlash
     !own.isEmpty &&
       match rest1 with
       | '/' :: rest2 =>
         let core := if ".git".toList.isSuffixOf rest2
                     then rest2.take (rest2.length - 4) else rest2
         !core.isEmpty && core.all notSlashDot
       | _ => false)

/-! # Theorems -/

theorem mergeField_spec (ef : Option String) (pf : Option (Option String)) :
    mergeField ef pf = pf.getD ef := by
  cases pf with
  | none => cases ef <;> rfl
  | some v => cases v <;> rfl

/-- Claim C5: `write(partial)` followed by `read()` returns the union of the
prior fields and the update's fields (the update winning on overlap, a field
explicitly set to `undefined` removed), and `clear()` followed by `read()`
returns the absent state, `clear()` on an absent binding succeeding as a
no-op. -/
theorem config_write_read_union (st : Option LightCloudConfig) (upd : ConfigUpdate)
    (f : ConfigField) :
    (ConfigManager.read (ConfigManager.write upd st).1).map (fun c => c.get f)
        = some ((upd.get f).getD (((ConfigManager.read st).getD emptyConfig).get f))
      ∧ (ConfigManager.write upd st).2 = true
      ∧ ConfigManager.read (ConfigManager.clear st).1 = none
      ∧ (ConfigManager.clear st).2 = true
      ∧ ConfigManager.clear (ConfigManager.clear st).1 = ConfigManager.clear st := by
  refine ⟨?_, rfl, rfl, rfl, rfl⟩
  cases st <;> cases f <;>
    simp [ConfigManager.write, ConfigManager.read, LightCloudConfig.get, ConfigUpdate.get,
      emptyConfig, mergeField_spec]

/-- Claim C1 counterexample: a persisted binding with `applicationId` (and
`applicationName`) but no `organisationId` is not treated as absent by the
destroy command - it proceeds to the delete confirmation for that binding,
passing the absent `organisationId` through. -/
theorem binding_pairing_counterexample :
    ({ applicationId := some "app-123", applicationName := some "my-app" } :
        LightCloudConfig).organisationId = none
      ∧ DestroyCommand.executeNoTarget
          (some { applicationId := some "app-123", applicationName := some "my-app" })
          = DestroyOutcome.confirmFromBinding (some "app-123") (some "my-app") none := by
  decide

/-- Claim C1 amended: the redeploy command treats a binding missing any of
`applicationId`, `organisationId`, `environmentId` as absent (reports
`no-config`, issues no call); the destroy command checks only `applicationId`
and `applicationName` - it uses a binding that has both even when
`organisationId` is missing, passing the possibly-absent `organisationId`
through, and treats the binding as absent exactly when `applicationId` or
`applicationName` is missing; the status command consults only
`applicationName`. -/
theorem binding_pairing_amended (c : LightCloudConfig) :
    ((jsTruthy c.applicationId = false ∨ jsTruthy c.organisationId = false
        ∨ jsTruthy c.environmentId = false) →
      ∀ ds : Bool, RedeployCommand.execute (some c) ds = ("no-config", []))
    ∧ (jsTruthy c.applicationId = true → jsTruthy c.applicationName = true →
        DestroyCommand.executeNoTarget (some c)
          = DestroyOutcome.confirmFromBinding c.applicationId c.applicationName
              c.organisationId)
    ∧ ((jsTruthy c.applicationId = false ∨ jsTruthy c.applicationName = false) →
        DestroyCommand.executeNoTarget (some c) = DestroyOutcome.missingTarget)
    ∧ (jsTruthy c.applicationName = false →
        StatusCommand.configNameFilter (some c) = none) := by
  refine ⟨?_, ?_, ?_, ?_⟩
  · intro h ds
    rcases h with h | h | h <;> simp [RedeployCommand.execute, h]
  · intro h1 h2
    simp [DestroyCommand.executeNoTarget, h1, h2]
  · intro h
    rcases h with h | h <;> simp [DestroyCommand.executeNoTarget, h]
  · intro h
    simp [StatusCommand.configNameFilter, h]

/-- Claim C2: a container definition file (Dockerfile) at the project root
forces `deploymentType = container`, regardless of every other detected
framework or runtime signal. -/
theorem dockerfile_forces_container (p : ProjectDir) (h : p.hasDockerfile = true) :
    (FrameworkDetector.detect p).deploymentType = DeploymentType.container := by
  unfold FrameworkDetector.detect
  rw [h]
  simp

/-- Claim C2 witness: a project whose manifests signal a static single-page
app (react + vite) but which carries a Dockerfile detects as `container`. -/
theorem dockerfile_forces_container_witness :
    (FrameworkDetector.detect
        { packageJson := some { deps := ["react", "vite"] }, hasDockerfile := true }
      ).deploymentType = DeploymentType.container :=
  dockerfile_forces_container
    { packageJson := some { deps := ["react", "vite"] }, hasDockerfile := true } rfl

theorem waitAux_skip (statusAt : Nat → Option String) (fuel k : Nat)
    (hk : k * pollIntervalMs < maxWaitMs)
    (hh : statusAt k ≠ some "healthy") (hf : statusAt k ≠ some "failed") :
    waitAux statusAt (fuel + 1) k = waitAux statusAt fuel (k + 1) := by
  simp only [waitAux]
  rw [if_pos hk]
  cases hs : statusAt k with
  | none => rfl
  | some s =>
    have h1 : s ≠ "healthy" := fun h => hh (by rw [hs, h])
    have h2 : s ≠ "failed" := fun h => hf (by rw [hs, h])
    simp [h1, h2]

theorem waitAux_from (statusAt : Nat → Option String) (i : Nat) (hi : i ≤ 100)
    (hpre : ∀ j, j < i → statusAt j ≠ some "healthy" ∧ statusAt j ≠ some "failed") :
    waitAux statusAt 101 0 = waitAux statusAt (101 - i) i := by
  induction i with
  | zero => rfl
  | succ n ih =>
    rw [ih (by omega) (fun j hj => hpre j (by omega))]
    have he : 101 - n = (101 - (n + 1)) + 1 := by omega
    rw [he]
    exact waitAux_skip statusAt _ n
      (by
        have hn : n ≤ 99 := by omega
        calc n * pollIntervalMs ≤ 99 * pollIntervalMs := Nat.mul_le_mul_right _ hn
          _ < maxWaitMs := by norm_num [pollIntervalMs, maxWaitMs])
      (hpre n (by omega)).1 (hpre n (by omega)).2

/-- Claim C3: in the deployment health-wait loop, the first `healthy` sample
resolves the loop with no further poll; the first `failed` sample raises
immediately (at that poll, without waiting out the time budget); and when the
time budget elapses with no terminal sample among the 100 polls it allows,
the loop resolves normally as a timeout, not an error. -/
theorem waitForDeployment_terminal_behavior (statusAt : Nat → Option String)
    (i : Nat) (hi : i < 100)
    (hpre : ∀ j, j < i → statusAt j ≠ some "healthy" ∧ statusAt j ≠ some "failed") :
    (statusAt i = some "healthy" →
        UploadDeployCommand.waitForDeployment statusAt = (WaitOutcome.healthy, i + 1))
    ∧ (statusAt i = some "failed" →
        UploadDeployCommand.waitForDeployment statusAt = (WaitOutcome.failedErr, i + 1))
    ∧ ((∀ j, j < 100 → statusAt j ≠ some "healthy" ∧ statusAt j ≠ some "failed") →
        UploadDeployCommand.waitForDeployment statusAt = (WaitOutcome.timedOut, 100)) := by
  have hik : i * pollIntervalMs < maxWaitMs := by
    have hn : i ≤ 99 := by omega
    calc i * pollIntervalMs ≤ 99 * pollIntervalMs := Nat.mul_le_mul_right _ hn
      _ < maxWaitMs := by norm_num [pollIntervalMs, maxWaitMs]
  have hstep : UploadDeployCommand.waitForDeployment statusAt
      = waitAux statusAt ((101 - (i + 1)) + 1) i := by
    unfold UploadDeployCommand.waitForDeployment
    rw [waitAux_from statusAt i (by omega) hpre]
    congr 1
    omega
  refine ⟨?_, ?_, ?_⟩
  · intro hs
    rw [hstep]
    simp only [waitAux]
    rw [if_pos hik, hs]
    simp
  · intro hs
    rw [hstep]
    simp only [waitAux]
    rw [if_pos hik, hs]
    simp
  · intro hall
    unfold UploadDeployCommand.waitForDeployment
    rw [waitAux_from statusAt 100 (by omega) (fun j hj => hall j hj)]
    simp only [waitAux]
    rw [if_neg (by norm_num [pollIntervalMs, maxWaitMs])]

/-- Claim C3 witness: on the status sequence `[pending, building, healthy]`
the loop resolves successfully at the third poll and issues no further
poll. -/
theorem waitForDeployment_terminal_behavior_witness :
    UploadDeployCommand.waitForDeployment
        (fun n => if n == 0 then some "pending" else
          if n == 1 then some "building" else some "healthy")
      = (WaitOutcome.healthy, 3) :=
  (waitForDeployment_terminal_behavior
    (fun n => if n == 0 then some "pending" else
      if n == 1 then some "building" else some "healthy")
    2 (by decide) (by decide)).1 rfl

/-- Claim C4: with the workspace present, a package whose `totalSize` is
exactly the configured ceiling (`uploadMaxSizeMB * 1024 * 1024` bytes) is
accepted - the upload call is issued right after packaging and no size
rejection occurs - while a package of ceiling + 1 bytes is rejected with
status `too-large` after packaging and before any upload call. -/
theorem upload_size_gate (sc : UploadDeployScenario) (hw : sc.workspaceFound = true) :
    (sc.totalSize = jsOrNat sc.uploadMaxSizeMBSetting 100 * 1024 * 1024 →
        (UploadDeployCommand.execute sc).1.take 2 = [UpEvent.packaged, UpEvent.uploadCall]
        ∧ UpEvent.sizeRejected ∉ (UploadDeployCommand.execute sc).1
        ∧ (UploadDeployCommand.execute sc).2 ≠ CmdResult.finished "too-large")
    ∧ (sc.totalSize = jsOrNat sc.uploadMaxSizeMBSetting 100 * 1024 * 1024 + 1 →
        (UploadDeployCommand.execute sc).1 = [UpEvent.packaged, UpEvent.sizeRejected]
        ∧ (UploadDeployCommand.execute sc).2 = CmdResult.finished "too-large"
        ∧ UpEvent.uploadCall ∉ (UploadDeployCommand.execute sc).1) := by
  constructor
  · intro h
    have hgt : ¬ (sc.totalSize > jsOrNat sc.uploadMaxSizeMBSetting 100 * 1024 * 1024) := by
      omega
    simp only [UploadDeployCommand.execute, hw, Bool.not_true, Bool.false_eq_true, if_false,
      if_neg hgt]
    cases hu : sc.uploadOutcome with
    | errMsg m => simp
    | okId uid =>
      cases hcs : sc.createSuccess with
      | false => simp
      | true =>
        simp only [Bool.not_true, Bool.false_eq_true, if_false]
        cases hb : (sc.showBuildLogs && sc.hasFirstEnvironment) with
        | false => simp
        | true =>
          simp only [if_true]
          rcases hwd : UploadDeployCommand.waitForDeployment sc.envStatusAt with ⟨o, n⟩
          cases o <;> simp
  · intro h
    have hgt : sc.totalSize > jsOrNat sc.uploadMaxSizeMBSetting 100 * 1024 * 1024 := by
      omega
    simp only [UploadDeployCommand.execute, hw, Bool.not_true, Bool.false_eq_true, if_false,
      if_pos hgt]
    simp

/-- Claim C4 witness: at the default 100 MB ceiling, a package of exactly
104857600 bytes passes the size gate and the upload call is issued right
after packaging. -/
theorem upload_size_gate_witness :
    (UploadDeployCommand.execute { totalSize := 104857600 }).1.take 2
        = [UpEvent.packaged, UpEvent.uploadCall]
      ∧ UpEvent.sizeRejected ∉ (UploadDeployCommand.execute { totalSize := 104857600 }).1
      ∧ (UploadDeployCommand.execute { totalSize := 104857600 }).2
        ≠ CmdResult.finished "too-large" :=
  (upload_size_gate { totalSize := 104857600 } rfl).1 (by decide)

/-- Claim C6: when a directory entry matches an exclusion pattern the walk
does not recurse into it, so the walk's entire result - collected files,
excluded count, and the list of every path tested against the patterns - is
independent of the directory's contents: no file under the directory is
collected and no entry inside it is ever individually tested. -/
theorem excluded_dir_pruned (patterns : List String) (pre dname : String)
    (children children' : List FsEntry) (bef aft : List FsEntry) (fuel : Nat)
    (hex : shouldExclude (relJoin pre dname) dname patterns = true) :
    SourcePackager.collectFiles patterns fuel pre
        (bef ++ FsEntry.dir dname children :: aft)
      = SourcePackager.collectFiles patterns fuel pre
        (bef ++ FsEntry.dir dname children' :: aft) := by
  induction fuel generalizing bef with
  | zero => rfl
  | succ fuel ih =>
    cases bef with
    | nil =>
      simp only [List.nil_append, SourcePackager.collectFiles, FsEntry.entryName,
        List.append_eq]
      rw [if_pos hex, if_pos hex]
    | cons b bs =>
      cases b with
      | file n =>
        simp only [List.cons_append, SourcePackager.collectFiles, FsEntry.entryName,
          List.append_eq]
        by_cases hb : shouldExclude (relJoin pre n) n patterns = true
        · rw [if_pos hb, if_pos hb, ih bs]
        · rw [if_neg hb, if_neg hb, ih bs]
      | dir n ch =>
        simp only [List.cons_append, SourcePackager.collectFiles, FsEntry.entryName,
          List.append_eq]
        by_cases hb : shouldExclude (relJoin pre n) n patterns = true
        · rw [if_pos hb, if_pos hb, ih bs]
        · rw [if_neg hb, if_neg hb, ih bs]

/-- Claim C6 witness: with `node_modules` excluded, walking a tree whose
`node_modules` directory contains a file gives the same result (same files,
same excluded count, same tested paths) as walking it with `node_modules`
empty. -/
theorem excluded_dir_pruned_witness :
    shouldExclude "node_modules" "node_modules" DEFAULT_EXCLUDES = true
      ∧ SourcePackager.collectFiles DEFAULT_EXCLUDES 4 ""
          [FsEntry.file "index.js", FsEntry.dir "node_modules" [FsEntry.file "dep.js"]]
        = SourcePackager.collectFiles DEFAULT_EXCLUDES 4 ""
          [FsEntry.file "index.js", FsEntry.dir "node_modules" []] :=
  ⟨by decide,
    excluded_dir_pruned DEFAULT_EXCLUDES "" "node_modules" [FsEntry.file "dep.js"] []
      [FsEntry.file "index.js"] [] 4 (by decide)⟩

/-- Claim C10: the source file at relative path `src/layout.ts` matches no
default exclusion pattern exactly and does not sit under any excluded
directory (`src` itself is not excluded), yet `shouldExclude` returns true
for it - the baseline pattern `out` is found as a substring of the relative
path (inside `layout`) - so the packager omits it from the collected file
list. -/
theorem substring_exclusion_omits_src_layout :
    shouldExclude "src/layout.ts" "layout.ts" DEFAULT_EXCLUDES = true
      ∧ DEFAULT_EXCLUDES.all (fun p => !(p == "layout.ts")) = true
      ∧ shouldExclude "src" "src" DEFAULT_EXCLUDES = false
      ∧ (SourcePackager.collectFiles DEFAULT_EXCLUDES 4 ""
          [FsEntry.dir "src" [FsEntry.file "layout.ts"], FsEntry.file "index.html"]).files
        = ["index.html"] := by
  decide

theorem requestAux_skip (fetchAt : Nat → FetchRes) (refreshAt : Nat → Bool)
    (fuel n : Nat) (h401 : is401 (fetchAt n) = true) (hrf : refreshAt n = true) :
    ApiClient.requestAux fetchAt refreshAt (fuel + 1) n
      = ApiClient.requestAux fetchAt refreshAt fuel (n + 1) := by
  cases hfr : fetchAt n with
  | throwsNet m => rw [hfr] at h401; simp [is401] at h401
  | resp status text body =>
    rw [hfr] at h401
    simp only [is401, beq_iff_eq] at h401
    subst h401
    simp only [ApiClient.requestAux, hfr]
    norm_num
    rw [hrf]
    simp

theorem requestAux_from (fetchAt : Nat → FetchRes) (refreshAt : Nat → Bool)
    (k fuel : Nat) (hk : k ≤ fuel)
    (hpre : ∀ j, j < k → is401 (fetchAt j) = true ∧ refreshAt j = true) :
    ApiClient.requestAux fetchAt refreshAt fuel 0
      = ApiClient.requestAux fetchAt refreshAt (fuel - k) k := by
  induction k with
  | zero => rfl
  | succ n ih =>
    rw [ih (by omega) (fun j hj => hpre j (by omega))]
    have he : fuel - n = (fuel - (n + 1)) + 1 := by omega
    rw [he]
    exact requestAux_skip fetchAt refreshAt _ n (hpre n (by omega)).1 (hpre n (by omega)).2

theorem requestAux_exit (fetchAt : Nat → FetchRes) (refreshAt : Nat → Bool)
    (fuel n : Nat) (hexit : is401 (fetchAt n) = false ∨ refreshAt n = false) :
    ApiClient.requestAux fetchAt refreshAt (fuel + 1) n
      = some (requestExit (fetchAt n), n + 1) := by
  cases hfr : fetchAt n with
  | throwsNet m =>
    simp [ApiClient.requestAux, hfr, requestExit, is401, handleNon401]
  | resp status text body =>
    by_cases h401 : status = 401
    · subst h401
      have hrf : refreshAt n = false := by
        rcases hexit with h | h
        · rw [hfr] at h; simp [is401] at h
        · exact h
      simp [ApiClient.requestAux, hfr, hrf, requestExit, is401]
    · simp only [ApiClient.requestAux, hfr, requestExit, is401, handleNon401]
      have hb : (status == 401) = false := by simp [h401]
      by_cases hred : (300 ≤ status && status < 400) = true
      · simp [hred, h401]
      · simp only [Bool.not_eq_true] at hred
        by_cases hok : respIsOk status = true
        · simp [hred, hb, hok, h401]
        · simp only [Bool.not_eq_true] at hok
          simp [hred, hb, hok, h401]

/-- Claim C7 counterexample: a single original call that is answered 401
twice (with a successful token refresh each time) and then 200 completes
successfully after three HTTP attempts - two retries and two refreshes for
one call, where the claim allows exactly one refresh and at most one
retry. -/
theorem request_retry_counterexample :
    ApiClient.request
        (fun n => if n < 2 then FetchRes.resp 401 "Unauthorized" {}
          else FetchRes.resp 200 "OK" {})
        (fun _ => true) 10
      = some (ApiOutcome.ok, 3) := by
  decide

/-- Claim C7 amended: on a 401 response the client refreshes the token and,
when the refresh succeeds, retries the original request - repeating for every
subsequent 401, with no retry cap; the run exits at the first attempt that is
not a refreshed 401, surfacing the session-expired error when that attempt is
a 401 whose refresh failed, and the normally-handled outcome otherwise. -/
theorem request_retries_while_refresh_succeeds (fetchAt : Nat → FetchRes)
    (refreshAt : Nat → Bool) (k fuel : Nat) (hk : k < fuel)
    (hpre : ∀ j, j < k → is401 (fetchAt j) = true ∧ refreshAt j = true)
    (hexit : is401 (fetchAt k) = false ∨ refreshAt k = false) :
    ApiClient.request fetchAt refreshAt fuel = some (requestExit (fetchAt k), k + 1) := by
  unfold ApiClient.request
  rw [requestAux_from fetchAt refreshAt k fuel (by omega) hpre]
  have he : fuel - k = (fuel - k - 1) + 1 := by omega
  rw [he]
  exact requestAux_exit fetchAt refreshAt _ k hexit

/-- Claim C7 witness: with every attempt answered 401 and the second refresh
failing, the call surfaces the session-expired failure after two HTTP
attempts. -/
theorem request_retries_while_refresh_succeeds_witness :
    ApiClient.request (fun _ => FetchRes.resp 401 "Unauthorized" {})
        (fun n => n == 0) 10
      = some (ApiOutcome.err
          ⟨"UNAUTHORIZED", "Session expired. Please login again."⟩, 2) := by
  have h := request_retries_while_refresh_succeeds
    (fun _ => FetchRes.resp 401 "Unauthorized" {}) (fun n => n == 0) 1 10
    (by decide) (by decide) (by decide)
  simpa [requestExit, is401] using h

/-- Claim C8 counterexample: when the PUT to the signed URL returns a non-ok
response (HTTP 500), the upload step fails, yet the 100% progress event has
already been reported for that failed step. -/
theorem upload_progress_counterexample :
    (SourceUploader.upload { putOutcome := FetchPutOutcome.resp false 500, bufferLength := 10 }).1 = [⟨10, 10, 100⟩]
    ∧ (SourceUploader.upload { putOutcome := FetchPutOutcome.resp false 500, bufferLength := 10 }).2 = UploadCallOutcome.errMsg "Upload failed: 500" := by
  decide

/-- Claim C8 amended: a successful upload reports exactly one progress event,
at exactly 100%; no progress is reported when the signed-URL request fails or
when the PUT throws; but whenever the PUT returns a response - even a non-ok
one, or one whose completion step then fails - the single 100% event is
emitted before the failure is surfaced, so progress is reported for such
failed attempts. -/
theorem upload_progress_amended (sc : UploadScenario) :
    (∀ uploadId, (SourceUploader.upload sc).2 = UploadCallOutcome.okId uploadId →
        (SourceUploader.upload sc).1 = [⟨sc.bufferLength, sc.bufferLength, 100⟩])
    ∧ (∀ m, sc.putOutcome = FetchPutOutcome.throwsNet m →
        (SourceUploader.upload sc).1 = [])
    ∧ (sc.requestUrlOutcome = none → (SourceUploader.upload sc).1 = [])
    ∧ (∀ ok status, sc.putOutcome = FetchPutOutcome.resp ok status →
        sc.requestUrlOutcome ≠ none →
        (SourceUploader.upload sc).1 = [⟨sc.bufferLength, sc.bufferLength, 100⟩]) := by
  obtain ⟨ru, rum, po, cs, cm, bl⟩ := sc
  refine ⟨?_, ?_, ?_, ?_⟩
  · intro uploadId h
    cases ru with
    | none => simp [SourceUploader.upload] at h
    | some uid =>
      cases po with
      | throwsNet m => simp [SourceUploader.upload, SourceUploader.uploadToSignedUrl] at h
      | resp ok status =>
        cases ok with
        | false =>
          simp [SourceUploader.upload, SourceUploader.uploadToSignedUrl] at h
        | true =>
          cases cs with
          | false => simp [SourceUploader.upload, SourceUploader.uploadToSignedUrl] at h
          | true => simp [SourceUploader.upload, SourceUploader.uploadToSignedUrl]
  · intro m h
    cases ru with
    | none => simp [SourceUploader.upload]
    | some uid =>
      subst h
      simp [SourceUploader.upload, SourceUploader.uploadToSignedUrl]
  · intro h
    subst h
    simp [SourceUploader.upload]
  · intro ok status h hru
    cases ru with
    | none => exact absurd rfl hru
    | some uid =>
      subst h
      cases ok with
      | false => simp [SourceUploader.upload, SourceUploader.uploadToSignedUrl]
      | true =>
        cases cs with
        | false => simp [SourceUploader.upload, SourceUploader.uploadToSignedUrl]
        | true => simp [SourceUploader.upload, SourceUploader.uploadToSignedUrl]

theorem scanFor_isSome (m : List Char → Option (List Char × List Char)) (cs : List Char) :
    (scanFor m cs).isSome = true ↔ ∃ v, v <:+ cs ∧ (m v).isSome = true := by
  induction cs with
  | nil =>
    constructor
    · intro h
      exact ⟨[], List.suffix_rfl, h⟩
    · rintro ⟨v, hv, hm⟩
      rw [List.suffix_nil.mp hv] at hm
      exact hm
  | cons c rest ih =>
    simp only [scanFor]
    cases hm : m (c :: rest) with
    | some r =>
      simp only [Option.isSome_some, true_iff]
      exact ⟨c :: rest, List.suffix_rfl, by rw [hm]; rfl⟩
    | none =>
      rw [ih]
      constructor
      · rintro ⟨v, hv, hmv⟩
        exact ⟨v, hv.trans (rest.suffix_cons c), hmv⟩
      · rintro ⟨v, hv, hmv⟩
        rcases List.suffix_cons_iff.mp hv with h | h
        · rw [h, hm] at hmv
          cases hmv
        · exact ⟨v, h, hmv⟩

/-- Claim C9 counterexample: the remote URL `https://notgithub.com/acme/web`
is in neither the provider's HTTPS form nor its SSH form, yet VCS
introspection classifies it as hosted on GitHub (the regex matches the
`github.com/acme/web` substring inside `notgithub.com/acme/web`). -/
theorem parseGitHubUrl_form_counterexample :
    (GitDetector.parseGitHubUrl (some "https://notgithub.com/acme/web")).isGitHub = true
      ∧ specProviderHttpsForm "https://notgithub.com/acme/web" = false
      ∧ specProviderSshForm "https://notgithub.com/acme/web" = false := by
  decide

/-- Claim C9 amended: VCS introspection classifies a remote URL as hosted on
GitHub exactly when the URL contains, at some position, the provider's
HTTPS-style `github.com/<owner>/<repo>` segment or SSH-style
`git@github.com:<owner>/<repo>` segment (substring match, not a whole-URL
form check); absence of a remote URL yields `isGitHub = false`. -/
theorem parseGitHubUrl_matches_iff (u : String) :
    ((GitDetector.parseGitHubUrl (some u)).isGitHub = true
      ↔ ∃ v, v <:+ u.toList
          ∧ ((matchHttpsAt v).isSome = true ∨ (matchSshAt v).isSome = true))
    ∧ (GitDetector.parseGitHubUrl none).isGitHub = false := by
  constructor
  · have hchar : (GitDetector.parseGitHubUrl (some u)).isGitHub
        = ((scanFor matchHttpsAt u.toList).isSome || (scanFor matchSshAt u.toList).isSome) := by
      unfold GitDetector.parseGitHubUrl
      simp only [String.toList]
      cases h1 : scanFor matchHttpsAt u.data with
      | some r => rcases r with ⟨a, b⟩; simp [h1]
      | none =>
        cases h2 : scanFor matchSshAt u.data with
        | some r => rcases r with ⟨a, b⟩; simp [h1, h2]
        | none => simp [h1, h2]
    rw [hchar, Bool.or_eq_true, scanFor_isSome, scanFor_isSome]
    constructor
    · rintro (⟨v, hv, hm⟩ | ⟨v, hv, hm⟩)
      · exact ⟨v, hv, Or.inl hm⟩
      · exact ⟨v, hv, Or.inr hm⟩
    · rintro ⟨v, hv, hm | hm⟩
      · exact Or.inl ⟨v, hv, hm⟩
      · exact Or.inr ⟨v, hv, hm⟩
  · rfl
